import Mathlib

/-!
Verification of the InDriver receipt-extraction core of the wego repository.

The development shallowly embeds the Python modules
`backend/src/application/indriver/text_parser.py` and
`backend/src/application/indriver/extraction_service.py`:
pure functions become Lean functions on `List Char` and `ℚ`
(IEEE floats are modelled as exact rationals; every monetary value in the
claims is an exact decimal, so no rounding behaviour is lost),
regular-expression extractors become hand-rolled leftmost-match scanners that
mirror the concrete pattern, and fallible code (the unguarded
`float(pct_str)` conversion in `_parse_financial_data`) returns `Except`.
-/

namespace Wego

abbrev Chars := List Char

deriving instance DecidableEq for Except

/-- Python `\s` whitespace (ASCII range, which is all that occurs here). -/
def isPySpace (c : Char) : Bool :=
  c = ' ' ∨ c = '\t' ∨ c = '\n' ∨ c = '\r' ∨ c = '\x0b' ∨ c = '\x0c'

/-- Lower-casing used by `re.IGNORECASE`: ASCII letters plus the accented
Spanish letters that appear in the patterns. -/
def lowerCh (c : Char) : Char :=
  if 'A' ≤ c ∧ c ≤ 'Z' then Char.ofNat (c.toNat + 32)
  else if c = 'Á' then 'á' else if c = 'É' then 'é'
  else if c = 'Í' then 'í' else if c = 'Ó' then 'ó'
  else if c = 'Ú' then 'ú' else if c = 'Ñ' then 'ñ'
  else c

def lowEq (c d : Char) : Bool := lowerCh c = lowerCh d

/-- Consume the pattern `pat` (given literally) case-insensitively. -/
def eatCI : Chars → Chars → Option Chars
  | [], s => some s
  | _ :: _, [] => none
  | p :: ps, c :: cs => if lowEq p c then eatCI ps cs else none

/-- Try a regex alternation: the alternatives in order, at the same spot. -/
def eatAltCI (alts : List String) (s : Chars) : Option (String × Chars) :=
  match alts with
  | [] => none
  | a :: rest =>
    match eatCI a.data s with
    | some s2 => some (a, s2)
    | none => eatAltCI rest s

/-- Maximal run of decimal digits (`\d*`). -/
def takeDigits (s : Chars) : Chars × Chars :=
  match s with
  | [] => ([], [])
  | c :: cs =>
    if c.isDigit then
      let (d, r) := takeDigits cs
      (c :: d, r)
    else ([], s)

/-- Embeds `\s*`. -/
def dropSpaces (s : Chars) : Chars := s.dropWhile isPySpace

/-- Embeds `\s+`. -/
def eatSpaces1 (s : Chars) : Option Chars :=
  match s with
  | c :: cs => if isPySpace c then some (dropSpaces cs) else none
  | [] => none

def natOfDigits (d : Chars) : Nat :=
  d.foldl (fun a c => a * 10 + (c.toNat - 48)) 0

/-!
The `Rat` field operations of Batteries are `@[irreducible]`, which blocks
the definitional evaluation that the concrete witnesses below rely on.
The embedding therefore computes with the following `mkRat`-based clones,
each proved equal to the corresponding field operation
(`qadd_eq` and friends below), so that every theorem can still be stated
in ordinary `ℚ` arithmetic.
-/

def qadd (a b : ℚ) : ℚ := mkRat (a.num * b.den + b.num * a.den) (a.den * b.den)

def qsub (a b : ℚ) : ℚ := mkRat (a.num * b.den - b.num * a.den) (a.den * b.den)

def qmul (a b : ℚ) : ℚ := mkRat (a.num * b.num) (a.den * b.den)

/-- Division by a natural constant (every division in the source divides
by a positive literal or a list length). -/
def qdivNat (a : ℚ) (n : Nat) : ℚ := mkRat a.num (a.den * n)

def qabs (a : ℚ) : ℚ := mkRat a.num.natAbs a.den

def qsum (l : List ℚ) : ℚ := l.foldr qadd 0

def qfloor (a : ℚ) : Int := a.num / a.den

/-- Leftmost match of an anchored matcher `tryAt`, with its start offset;
this is `re.search` for the patterns embedded below. -/
def firstMatch {α : Type} (tryAt : Chars → Option α) : Chars → Option (Nat × α)
  | [] => (tryAt []).map (fun a => (0, a))
  | c :: rest =>
    match tryAt (c :: rest) with
    | some a => some (0, a)
    | none => (firstMatch tryAt rest).map (fun p => (p.1 + 1, p.2))

/-- Whether the matcher matches anywhere (`re.search` used as a predicate). -/
def hasMatch {α : Type} (tryAt : Chars → Option α) (s : Chars) : Bool :=
  (firstMatch tryAt s).isSome

/-- Case-sensitive prefix test. -/
def startsWith : Chars → Chars → Bool
  | [], _ => true
  | _ :: _, [] => false
  | p :: ps, c :: cs => p = c ∧ startsWith ps cs

/-- Substring test, mirroring the Python `in` operator on strings. -/
def containsSub (needle : Chars) : Chars → Bool
  | [] => startsWith needle []
  | c :: cs => startsWith needle (c :: cs) ∨ containsSub needle cs

/-- Value of `intPart.fracPart` as an exact rational. -/
def ratOfParts (ip fp : Chars) : ℚ :=
  mkRat (natOfDigits ip * 10 ^ fp.length + natOfDigits fp) (10 ^ fp.length)

/-- Python `float(s)` on the strings this code feeds it: optional surrounding
whitespace, then digits with at most one decimal point and at least one
digit; anything else raises `ValueError` (modelled as `none`). -/
def pyFloat (s : Chars) : Option ℚ :=
  let t := (dropSpaces s).reverse
  let t := (dropSpaces t).reverse
  let (ip, r1) := takeDigits t
  match r1 with
  | [] => if ip = [] then none else some (ratOfParts ip [])
  | '.' :: r2 =>
    let (fp, r3) := takeDigits r2
    if r3 = [] ∧ (ip ≠ [] ∨ fp ≠ []) then some (ratOfParts ip fp) else none
  | _ => none

/-- Spanish month abbreviations, `SPANISH_MONTHS` in `text_parser.py`;
`_parse_date` reads it with `.get(month_abbr, 1)`. -/
def spanishMonth (a : String) : Nat :=
  if a = "ene" then 1 else if a = "feb" then 2 else if a = "mar" then 3
  else if a = "abr" then 4 else if a = "may" then 5 else if a = "jun" then 6
  else if a = "jul" then 7 else if a = "ago" then 8 else if a = "sep" then 9
  else if a = "oct" then 10 else if a = "nov" then 11 else if a = "dic" then 12
  else 1

structure Ymd where
  year : Nat
  month : Nat
  day : Nat
deriving DecidableEq, Repr

/-- Validity check performed by the `datetime(year, month, day)` constructor;
an invalid combination raises `ValueError`, which `_parse_date` catches. -/
def pyLeap (y : Nat) : Bool := y % 4 = 0 ∧ (y % 100 ≠ 0 ∨ y % 400 = 0)

def daysInMonth (y m : Nat) : Nat :=
  if m = 2 then (if pyLeap y then 29 else 28)
  else if m = 4 ∨ m = 6 ∨ m = 9 ∨ m = 11 then 30
  else 31

def validYmd (d : Ymd) : Bool :=
  1 ≤ d.year ∧ d.year ≤ 9999 ∧ 1 ≤ d.month ∧ d.month ≤ 12 ∧
    1 ≤ d.day ∧ d.day ≤ daysInMonth d.year d.month

/-- Anchored matcher for the `date` pattern of `text_parser.py`:
`(?:lun|mar|mi[eé]|jue|vie|s[aá]b|dom)[,.]?\s*(\d{1,2})\s+(ene|...|dic)\s+(\d{4})`
with `re.IGNORECASE`.  Note that the weekday group carries no `?`, so a
weekday abbreviation is required.  Returns (day digits, month abbr, year). -/
def tryDate (s : Chars) : Option (Nat × String × Nat) :=
  match eatAltCI ["lun", "mar", "mié", "mie", "jue", "vie", "sáb", "sab", "dom"] s with
  | none => none
  | some (_, s1) =>
    let s2 := match s1 with
      | c :: cs => if c = ',' ∨ c = '.' then cs else s1
      | [] => s1
    let s3 := dropSpaces s2
    let (dd, r) := takeDigits s3
    let rest2 (day : Chars) (r : Chars) : Option (Nat × String × Nat) :=
      match eatSpaces1 r with
      | none => none
      | some r2 =>
        match eatAltCI ["ene", "feb", "mar", "abr", "may", "jun", "jul", "ago",
            "sep", "oct", "nov", "dic"] r2 with
        | none => none
        | some (mon, r3) =>
          match eatSpaces1 r3 with
          | none => none
          | some r4 =>
            let (yd, _) := takeDigits r4
            if 4 ≤ yd.length then some (natOfDigits day, mon, natOfDigits (yd.take 4))
            else none
    match dd with
    | [] => none
    | [d1] => rest2 [d1] r
    | d1 :: d2 :: ds =>
      -- `\d{1,2}` is greedy: two digits first, then backtrack to one.
      match rest2 [d1, d2] (ds ++ r) with
      | some a => some a
      | none => rest2 [d1] (d2 :: ds ++ r)

/-- Embeds `_parse_date`: first match of the date pattern, month looked up with
default 1, the `datetime` constructor validating the triple (a `ValueError`
is caught and turns the result into `None`); confidence fixed at 0.95. -/
def parseDate (s : Chars) : Option (Ymd × ℚ) :=
  match firstMatch tryDate s with
  | none => none
  | some (_, (day, mon, year)) =>
    let d : Ymd := ⟨year, spanishMonth mon, day⟩
    if validYmd d then some (d, mkRat 95 100) else none

inductive DurationUnit | minutes | hours
deriving DecidableEq, Repr

inductive DistanceUnit | kilometers | meters
deriving DecidableEq, Repr

def pad2 (n : Nat) : String := if n < 10 then "0" ++ toString n else toString n

/-- Anchored matcher for `time`: `(\d{1,2}):(\d{2})\s*(a\.?m\.?|p\.?m\.?)`,
ignorecase.  Returns (hour, minute digits as printed, is-pm). -/
def tryTime (s : Chars) : Option (Nat × Chars × Bool) :=
  let (hh, r) := takeDigits s
  let rest2 (hour : Chars) (r : Chars) : Option (Nat × Chars × Bool) :=
    match r with
    | ':' :: r1 =>
      match r1 with
      | m1 :: m2 :: r2 =>
        if m1.isDigit ∧ m2.isDigit then
          let r3 := dropSpaces r2
          match r3 with
          | p :: r4 =>
            let pm := lowEq p 'p'
            if lowEq p 'a' ∨ lowEq p 'p' then
              let r5 := match r4 with | '.' :: t => t | _ => r4
              match r5 with
              | m :: r6 =>
                if lowEq m 'm' then
                  let _ := match r6 with | '.' :: t => some t | _ => some r6
                  some (natOfDigits hour, [m1, m2], pm)
                else none
              | [] => none
            else none
          | [] => none
        else none
      | _ => none
    | _ => none
  match hh with
  | [] => none
  | [d1] => rest2 [d1] r
  | d1 :: d2 :: ds => match rest2 [d1, d2] (ds ++ r) with
      | some a => some a
      | none => rest2 [d1] (d2 :: ds ++ r)

/-- Embeds `_parse_time`: 24-hour conversion (`pm` adds 12 unless hour = 12, `am`
turns 12 into 0) and `f"{hour:02d}:{minute}"`; confidence 0.95. -/
def parseTime (s : Chars) : Option (String × ℚ) :=
  match firstMatch tryTime s with
  | none => none
  | some (_, (h, mins, pm)) =>
    let hour := if pm ∧ h ≠ 12 then h + 12 else if ¬ pm ∧ h = 12 then 0 else h
    some (pad2 hour ++ ":" ++ String.mk mins, mkRat 95 100)

/-- Anchored matcher for `duration`: `(?:Duraci[oó]n)?\s*(\d+)\s*(min|hr)\.?`.
The optional label never changes the captured groups, so the matcher anchors
at the digits.  Returns (value digits, unit string lowered). -/
def tryDuration (s : Chars) : Option (Chars × String) :=
  let (dd, r) := takeDigits s
  if dd = [] then none
  else
    match eatAltCI ["min", "hr"] (dropSpaces r) with
    | some (u, _) => some (dd, u)
    | none => none

/-- Embeds `_parse_duration`: unit `hr` means hours, anything else minutes;
confidence 0.9. -/
def parseDuration (s : Chars) : Option ((Nat × DurationUnit) × ℚ) :=
  match firstMatch tryDuration s with
  | none => none
  | some (_, (dd, u)) =>
    some ((natOfDigits dd, if u = "hr" then .hours else .minutes), mkRat 9 10)

/-- Anchored matcher for `distance`:
`(?:Distancia)?\s*(\d+[,\.\s]?\d*)\s*(km|metro)` — returns the raw
captured group (with its single separator, if any) and the unit string.
Group backtracking: the optional separator is taken greedily and given up
only if the unit then fails to match. -/
def tryDist (s : Chars) : Option (Chars × String) :=
  let eatUnit (t : Chars) : Option String :=
    (eatAltCI ["km", "metro"] (dropSpaces t)).map Prod.fst
  let (d1, r1) := takeDigits s
  if d1 = [] then none
  else
    match r1 with
    | c :: r2 =>
      if c = ',' ∨ c = '.' ∨ isPySpace c then
        let (d2, r3) := takeDigits r2
        match eatUnit r3 with
        | some u => some (d1 ++ c :: d2, u)
        | none => (eatUnit r1).map (fun u => (d1, u))
      else (eatUnit r1).map (fun u => (d1, u))
    | [] => none

/-- Embeds `any(c in original_value_str for c in ",. ")` from `_parse_distance`. -/
def hasDecSep (g : Chars) : Bool := g.any (fun c => c = ',' ∨ c = '.' ∨ c = ' ')

/-- The OCR decimal-recovery heuristic of `_parse_distance` (lines 292-302):
for kilometres, a value ≥ 20 is divided by 10 unconditionally, and a value
≥ 10 is divided by 10 when the raw token has no decimal-separator char. -/
def distanceCorrect (unit : DistanceUnit) (g : Chars) (v : ℚ) : ℚ :=
  if unit = .kilometers then
    if 20 ≤ v then qdivNat v 10
    else if 10 ≤ v ∧ ¬ hasDecSep g then qdivNat v 10
    else v
  else v

/-- Embeds `_parse_distance`: comma and space in the captured group become periods,
the result goes through `float` (a failure returns `None`), `metro` means
meters, and the kilometre heuristic applies; confidence 0.9. -/
def parseDistance (s : Chars) : Option ((ℚ × DistanceUnit) × ℚ) :=
  match firstMatch tryDist s with
  | none => none
  | some (_, (g, u)) =>
    let valueStr := g.map (fun c => if c = ',' ∨ c = ' ' then '.' else c)
    match pyFloat valueStr with
    | none => none
    | some v =>
      let unit : DistanceUnit := if u = "metro" then .meters else .kilometers
      some ((distanceCorrect unit g v, unit), mkRat 9 10)

/-- Word characters for `\b` (Python `re` with Unicode: letters, digits, the
underscore; the accented Spanish letters occurring here are included). -/
def isWordCh (c : Char) : Bool :=
  c.isAlphanum ∨ c = '_' ∨
    c ∈ ['á', 'é', 'í', 'ó', 'ú', 'ñ', 'Á', 'É', 'Í', 'Ó', 'Ú', 'Ñ']

/-- Embeds `mis\s+ingresos`, ignorecase. -/
def tryMisIngresos (s : Chars) : Option Unit := do
  let s ← eatCI "mis".data s
  let s ← eatSpaces1 s
  let _ ← eatCI "ingresos".data s
  pure ()

/-- Embeds `\btarifa\b`, ignorecase; the matcher is handed the previous character
(or `none` at the start of the text) to decide the left word boundary. -/
def tryTarifa (prev : Option Char) (s : Chars) : Option Unit := do
  if (prev.map isWordCh).getD false then none else
  let s ← eatCI "tarifa".data s
  match s with
  | c :: _ => if isWordCh c then none else pure ()
  | [] => pure ()

/-- Embeds `total\s+recibido`, ignorecase. -/
def tryTotalRecibido (s : Chars) : Option Unit := do
  let s ← eatCI "total".data s
  let s ← eatSpaces1 s
  let _ ← eatCI "recibido".data s
  pure ()

/-- Embeds `(pagos?\s+por\s+el\s+servicio|9[,.]5\s*%)`, ignorecase. -/
def tryComision (s : Chars) : Option Unit :=
  let alt1 : Option Unit := do
    let s ← eatCI "pago".data s
    let s := match s with | c :: cs => if lowEq c 's' then cs else s | [] => s
    let s ← eatSpaces1 s
    let s ← eatCI "por".data s
    let s ← eatSpaces1 s
    let s ← eatCI "el".data s
    let s ← eatSpaces1 s
    let _ ← eatCI "servicio".data s
    pure ()
  match alt1 with
  | some _ => some ()
  | none => do
    let s ← eatCI "9".data s
    let s ← match s with
      | c :: cs => if c = ',' ∨ c = '.' then pure cs else none
      | [] => none
    let s ← eatCI "5".data s
    match dropSpaces s with
    | '%' :: _ => pure ()
    | _ => none

/-- Embeds `iva\s+(del\s+)?pago`, ignorecase. -/
def tryIva (s : Chars) : Option Unit := do
  let s ← eatCI "iva".data s
  let s ← eatSpaces1 s
  let s := match (do
      let t ← eatCI "del".data s
      eatSpaces1 t : Option Chars) with
    | some t => t
    | none => s
  let _ ← eatCI "pago".data s
  pure ()

/-- Embeds `total\s+pagado`, ignorecase. -/
def tryTotalPagado (s : Chars) : Option Unit := do
  let s ← eatCI "total".data s
  let s ← eatSpaces1 s
  let _ ← eatCI "pagado".data s
  pure ()

/-- Embeds `pasajero\s+cancel[oó]`, ignorecase. -/
def tryCancelled (s : Chars) : Option Unit := do
  let s ← eatCI "pasajero".data s
  let s ← eatSpaces1 s
  let s ← eatCI "cancel".data s
  match s with
  | c :: _ => if lowEq c 'o' ∨ lowEq c 'ó' then pure () else none
  | [] => none

/-- Embeds `pago\s+en\s+efectivo`, ignorecase. -/
def tryCash (s : Chars) : Option Unit := do
  let s ← eatCI "pago".data s
  let s ← eatSpaces1 s
  let s ← eatCI "en".data s
  let s ← eatSpaces1 s
  let _ ← eatCI "efectivo".data s
  pure ()

/-- Embeds `nequi`, ignorecase. -/
def tryNequi (s : Chars) : Option Unit := do
  let _ ← eatCI "nequi".data s
  pure ()

/-- Leftmost match of `\btarifa\b` with its start offset (the boundary needs
the preceding character, so this cannot reuse `firstMatch` directly). -/
def tarifaSearch : Option Char → Nat → Chars → Option Nat
  | prev, i, c :: rest =>
    match tryTarifa prev (c :: rest) with
    | some _ => some i
    | none => tarifaSearch (some c) (i + 1) rest
  | _, _, [] => none

/-- Embeds `[\d,\.]` (the currency / percentage token class). -/
def isCurrencyCh (c : Char) : Bool := c.isDigit ∨ c = ',' ∨ c = '.'

def takeCurrencyRun (s : Chars) : Chars × Chars :=
  match s with
  | [] => ([], [])
  | c :: cs =>
    if isCurrencyCh c then
      let (d, r) := takeCurrencyRun cs
      (c :: d, r)
    else ([], s)

/-- Anchored matcher for `currency`: `COP\s*([\d,\.]+)`, ignorecase.
Returns the captured token and the remainder after the whole match. -/
def tryCurrency (s : Chars) : Option (Chars × Chars) := do
  let s ← eatCI "COP".data s
  let s := dropSpaces s
  let (g, r) := takeCurrencyRun s
  if g = [] then none else some (g, r)

/-- Embeds `finditer` for the currency pattern: every non-overlapping match, with
the offset of the start of the whole match (`match.start()`).  The fuel is
only a termination device; every match consumes at least four characters,
so `s.length` fuel is never exhausted. -/
def currencyMatchesAux : Nat → Nat → Chars → List (Nat × Chars)
  | 0, _, _ => []
  | _ + 1, _, [] => []
  | fuel + 1, i, c :: rest =>
    match tryCurrency (c :: rest) with
    | some (g, r) =>
      let consumed := (c :: rest).length - r.length
      (i, g) :: currencyMatchesAux fuel (i + consumed) r
    | none => currencyMatchesAux fuel (i + 1) rest

def currencyMatches (s : Chars) : List (Nat × Chars) :=
  currencyMatchesAux s.length 0 s

/-- Anchored matcher for `percentage`: `([\d,\.]+)\s*%`. -/
def tryPercent (s : Chars) : Option Chars :=
  let (g, r) := takeCurrencyRun s
  if g = [] then none
  else
    match dropSpaces r with
    | '%' :: _ => some g
    | _ => none

def removeAll (x : Char) (s : Chars) : Chars := s.filter (fun c => c ≠ x)

/-- Python `str.replace(x, "", 1)` for a single character. -/
def removeFirst (x : Char) : Chars → Chars
  | [] => []
  | c :: cs => if c = x then cs else c :: removeFirst x cs

/-- Python `str.split(".")`. -/
def splitDot : Chars → List Chars
  | [] => [[]]
  | c :: cs =>
    if c = '.' then [] :: splitDot cs
    else
      match splitDot cs with
      | p :: ps => (c :: p) :: ps
      | [] => [[c]]

/-- The per-token value computation of `_parse_financial_data`
(lines 370-379): strip commas, drop the first period, but when the raw
token contains a period and splits into exactly two dot-parts, rejoin them
around a decimal point; a `float` failure skips the token. -/
def currencyValue (g : Chars) : Option ℚ :=
  let valueStr0 := removeFirst '.' (removeAll ',' g)
  let valueStr :=
    if g.contains '.' then
      match splitDot (removeAll ',' g) with
      | [a, b] => a ++ '.' :: b
      | _ => valueStr0
    else valueStr0
  pyFloat (removeAll ',' valueStr)

/-- The six financial-section fields keyed by the `result` dict. -/
inductive FinField
  | misIngresos | tarifa | totalRecibido | comision | iva | totalPagado
deriving DecidableEq, Repr

/-- The six `*_pos` variables of `_parse_financial_data`, `-1` when the
label phrase was not found. -/
structure LabelPos where
  misIngresos : Int := -1
  tarifa : Int := -1
  totalRecibido : Int := -1
  comision : Int := -1
  iva : Int := -1
  totalPagado : Int := -1
deriving DecidableEq, Repr

/-- The `result` dict of `_parse_financial_data`, restricted to the six
positionally assigned monetary keys (`none` = key absent). -/
structure FinMap where
  misIngresos : Option ℚ := none
  tarifa : Option ℚ := none
  totalRecibido : Option ℚ := none
  comision : Option ℚ := none
  iva : Option ℚ := none
  totalPagado : Option ℚ := none
deriving DecidableEq, Repr

def LabelPos.get (lp : LabelPos) : FinField → Int
  | .misIngresos => lp.misIngresos
  | .tarifa => lp.tarifa
  | .totalRecibido => lp.totalRecibido
  | .comision => lp.comision
  | .iva => lp.iva
  | .totalPagado => lp.totalPagado

def FinMap.get (m : FinMap) : FinField → Option ℚ
  | .misIngresos => m.misIngresos
  | .tarifa => m.tarifa
  | .totalRecibido => m.totalRecibido
  | .comision => m.comision
  | .iva => m.iva
  | .totalPagado => m.totalPagado

def FinMap.set (m : FinMap) : FinField → ℚ → FinMap
  | .misIngresos, v => { m with misIngresos := some v }
  | .tarifa, v => { m with tarifa := some v }
  | .totalRecibido, v => { m with totalRecibido := some v }
  | .comision, v => { m with comision := some v }
  | .iva, v => { m with iva := some v }
  | .totalPagado, v => { m with totalPagado := some v }

/-- Label positions computed by `_parse_financial_data` (lines 338-360). -/
def labelPositions (s : Chars) : LabelPos where
  misIngresos := match firstMatch tryMisIngresos s with
    | some (i, _) => (i : Int) | none => -1
  tarifa := match tarifaSearch none 0 s with
    | some i => (i : Int) | none => -1
  totalRecibido := match firstMatch tryTotalRecibido s with
    | some (i, _) => (i : Int) | none => -1
  comision := match firstMatch tryComision s with
    | some (i, _) => (i : Int) | none => -1
  iva := match firstMatch tryIva s with
    | some (i, _) => (i : Int) | none => -1
  totalPagado := match firstMatch tryTotalPagado s with
    | some (i, _) => (i : Int) | none => -1

/-- The `if/elif` assignment chain of `_parse_financial_data`
(lines 384-395): one currency token at offset `pos` with value `v`. -/
def assignOne (lp : LabelPos) (res : FinMap) (pos : Int) (v : ℚ) : FinMap :=
  if lp.totalPagado > 0 ∧ pos > lp.totalPagado ∧ res.totalPagado = none then
    { res with totalPagado := some v }
  else if lp.iva > 0 ∧ pos > lp.iva ∧ res.iva = none then
    { res with iva := some v }
  else if lp.comision > 0 ∧ pos > lp.comision ∧ res.comision = none then
    { res with comision := some v }
  else if lp.totalRecibido > 0 ∧ pos > lp.totalRecibido ∧ res.totalRecibido = none then
    { res with totalRecibido := some v }
  else if lp.tarifa > 0 ∧ pos > lp.tarifa ∧ res.tarifa = none then
    { res with tarifa := some v }
  else if lp.misIngresos > 0 ∧ pos > lp.misIngresos ∧ res.misIngresos = none then
    { res with misIngresos := some v }
  else res

/-- The loop over `currency_matches`: a token whose value string fails
`float` is skipped (`continue`). -/
def runAssign (lp : LabelPos) (tokens : List (Nat × Chars)) : FinMap :=
  tokens.foldl
    (fun res t =>
      match currencyValue t.2 with
      | some v => assignOne lp res (t.1 : Int) v
      | none => res)
    {}

/-- Positional part of `_parse_financial_data`. -/
def finAssign (s : Chars) : FinMap :=
  runAssign (labelPositions s) (currencyMatches s)

/-- Embeds `_parse_financial_data`: percentage extraction (whose `float(pct_str)`
call is not guarded, so a malformed percentage token raises `ValueError`)
plus the positional assignment of currency tokens. -/
def parseFinancialData (s : Chars) : Except String (FinMap × Option ℚ) := do
  let pct ← match firstMatch tryPercent s with
    | none => pure (none : Option ℚ)
    | some (_, g) =>
      match pyFloat (g.map (fun c => if c = ',' then '.' else c)) with
      | some v => pure (some v)
      | none => Except.error "could not convert string to float"
  pure (finAssign s, pct)

/-- The fixed priority order of the assignment chain, highest first. -/
def priorityOrder : List FinField :=
  [.totalPagado, .iva, .comision, .totalRecibido, .tarifa, .misIngresos]

/-- The label the chain selects for a token at `pos`: the first (highest
priority) label found at a positive offset, strictly before the token,
and not claimed yet. -/
def pickLabel (lp : LabelPos) (res : FinMap) (pos : Int) : Option FinField :=
  priorityOrder.find?
    (fun F => lp.get F > 0 ∧ pos > lp.get F ∧ res.get F = none)

/-- Python `str.strip()`. -/
def stripPy (s : Chars) : Chars :=
  ((dropSpaces ((dropSpaces s).reverse)).reverse)

/-- Index of the last newline of a list, if any. -/
def lastNewlineIdx (s : Chars) : Option Nat :=
  match s with
  | [] => none
  | c :: cs =>
    match lastNewlineIdx cs with
    | some i => some (i + 1)
    | none => if c = '\n' then some 0 else none

/-- Embeds `re.sub(r"\n\s*\n+", "\n", text)`: a match starts at a newline, runs
through following whitespace, and ends just after the last newline of that
whitespace run; it is replaced by a single newline.  Fuel-structured for
termination; `s.length` fuel always suffices. -/
def nlCollapseAux : Nat → Chars → Chars
  | 0, s => s
  | _ + 1, [] => []
  | fuel + 1, c :: cs =>
    if c = '\n' then
      let run := cs.takeWhile isPySpace
      match lastNewlineIdx run with
      | some k => '\n' :: nlCollapseAux fuel (cs.drop (k + 1))
      | none => c :: nlCollapseAux fuel cs
    else c :: nlCollapseAux fuel cs

def nlCollapse (s : Chars) : Chars := nlCollapseAux s.length s

/-- Embeds `re.sub(r"[^\S\n]+", " ", text)`: collapse runs of non-newline
whitespace to a single space. -/
def spaceCollapseAux : Bool → Chars → Chars
  | _, [] => []
  | inRun, c :: cs =>
    if isPySpace c ∧ c ≠ '\n' then
      if inRun then spaceCollapseAux true cs else ' ' :: spaceCollapseAux true cs
    else c :: spaceCollapseAux false cs

def spaceCollapse (s : Chars) : Chars := spaceCollapseAux false s

/-- Embeds `text.replace("0,00", "0.00")`: left-to-right, non-overlapping. -/
def fixDecimalAux : Nat → Chars → Chars
  | 0, s => s
  | _ + 1, [] => []
  | fuel + 1, c :: cs =>
    if startsWith ['0', ',', '0', '0'] (c :: cs) then
      '0' :: '.' :: '0' :: '0' :: fixDecimalAux fuel (cs.drop 3)
    else c :: fixDecimalAux fuel cs

def fixDecimal (s : Chars) : Chars := fixDecimalAux s.length s

/-- Embeds `_clean_text`: newline collapse, whitespace collapse, the `0,00` OCR
fix, and a final strip, in that order. -/
def cleanText (s : Chars) : Chars :=
  stripPy (fixDecimal (spaceCollapse (nlCollapse s)))

/-- Python `text.split("\n")`. -/
def splitLines : Chars → List Chars
  | [] => [[]]
  | c :: cs =>
    if c = '\n' then [] :: splitLines cs
    else
      match splitLines cs with
      | p :: ps => (c :: p) :: ps
      | [] => [[c]]

inductive RideStatus | completed | cancelledByPassenger | cancelledByDriver
deriving DecidableEq, Repr

inductive PaymentMethod | cash | nequi | other
deriving DecidableEq, Repr

/-- Embeds `_parse_status`. -/
def parseStatus (s : Chars) : RideStatus × ℚ :=
  if hasMatch tryCancelled s then (.cancelledByPassenger, mkRat 95 100)
  else (.completed, mkRat 9 10)

/-- Embeds `_parse_payment_method`: Nequi over cash over the `Otro` default. -/
def parsePaymentMethod (s : Chars) : PaymentMethod × String × ℚ :=
  if hasMatch tryNequi s then (.nequi, "Nequi", mkRat 95 100)
  else if hasMatch tryCash s then (.cash, "Pago en efectivo", mkRat 95 100)
  else (.other, "Otro", mkRat 1 2)

/-- Embeds `_parse_rating`: star count (both glyphs) capped at 5, else 5 on a
`calificaste` mention, else nothing. -/
def parseRating (s : Chars) : Option Nat :=
  let stars := s.count '★' + s.count '⭐'
  if stars > 0 then some (min stars 5)
  else if containsSub "calificaste".data (s.map lowerCh) then some 5
  else none

/-- Embeds `^(Cl|Cra|Carrera|Calle|Av|Universidad|Edificio|Centro)`, ignorecase. -/
def addressStart (line : Chars) : Bool :=
  (eatAltCI ["Cl", "Cra", "Carrera", "Calle", "Av", "Universidad", "Edificio",
    "Centro"] line).isSome

/-- Embeds `#\s*\d+` (searched anywhere in the line). -/
def tryHashNum (t : Chars) : Option Unit :=
  match t with
  | '#' :: r =>
    match dropSpaces r with
    | c :: _ => if c.isDigit then some () else none
    | [] => none
  | _ => none

/-- Embeds `re.sub(r"^[A-Z0-9]\)\s*", "", line)`. -/
def stripArtifact (line : Chars) : Chars :=
  match line with
  | c :: ')' :: rest =>
    if ('A' ≤ c ∧ c ≤ 'Z') ∨ c.isDigit then dropSpaces rest else line
  | _ => line

def isUpperName (c : Char) : Bool :=
  ('A' ≤ c ∧ c ≤ 'Z') ∨ c ∈ ['Á', 'É', 'Í', 'Ó', 'Ú', 'Ñ']

def isLowerName (c : Char) : Bool :=
  ('a' ≤ c ∧ c ≤ 'z') ∨ c ∈ ['á', 'é', 'í', 'ó', 'ú', 'ñ']

/-- One `[A-ZÁÉÍÓÚÑ][a-záéíóúñ]+` word; returns the rest. -/
def eatNameWord (t : Chars) : Option Chars :=
  match t with
  | c :: cs =>
    if isUpperName c then
      let ls := cs.takeWhile isLowerName
      if ls = [] then none else some (cs.drop ls.length)
    else none
  | [] => none

/-- Embeds `^[A-ZÁÉÍÓÚÑ][a-záéíóúñ]+(\s+[A-ZÁÉÍÓÚÑ][a-záéíóúñ]+)?$`. -/
def isNameMatch (t : Chars) : Bool :=
  match eatNameWord t with
  | none => false
  | some r =>
    (r.isEmpty ||
      (match eatSpaces1 r with
       | some r2 =>
         match eatNameWord r2 with
         | some r3 => r3.isEmpty
         | none => false
       | none => false) : Bool)

/-- The `skip_patterns` list of `_parse_passenger_and_destination`,
verbatim; note `"COP"` is compared against the lower-cased line in the
source, so that entry can never match. -/
def skipPatterns : List String :=
  ["duración", "distancia", "recib", "pagu", "tarifa",
   "total", "calific", "soporte", "ingresos", "COP",
   "pago", "nequi", "efectivo", "iva", "servicio"]

/-- The line loop of `_parse_passenger_and_destination`. -/
def passDestLoop :
    List Chars → Option Chars → Option Chars → Option Chars × Option Chars
  | [], dest, name => (dest, name)
  | l :: rest, dest, name =>
    let line := stripPy l
    if line.length < 2 then passDestLoop rest dest name
    else
      let dest2 :=
        match dest with
        | some _ => dest
        | none =>
          if addressStart line then some line
          else if hasMatch tryHashNum line then some line
          else none
      let name2 :=
        match name with
        | some _ => name
        | none =>
          if skipPatterns.any (fun p => containsSub p.data (line.map lowerCh))
          then none
          else
            let cleaned := stripPy (stripArtifact line)
            if isNameMatch cleaned ∧ 3 < cleaned.length ∧
                cleaned.map lowerCh ≠ "recibo".data ∧
                cleaned.map lowerCh ≠ "pagué".data
            then some cleaned else none
      passDestLoop rest dest2 name2

def parsePassengerAndDestination (lines : List Chars) :
    Option Chars × Option Chars :=
  passDestLoop lines none none

/-- Embeds `FieldConfidences` from `schemas.py` (all default 0). -/
structure FieldConfidences where
  date : ℚ := 0
  time : ℚ := 0
  destinationAddress : ℚ := 0
  duration : ℚ := 0
  distance : ℚ := 0
  passengerName : ℚ := 0
  paymentMethod : ℚ := 0
  tarifa : ℚ := 0
  totalRecibido : ℚ := 0
  comisionServicio : ℚ := 0
  ivaPagoServicio : ℚ := 0
  totalPagado : ℚ := 0
  misIngresos : ℚ := 0
deriving DecidableEq, Repr

/-- Confidence of an optional extractor result (the `result[1]` the parser
writes into the confidence vector; 0 when the extractor did not match). -/
def confOf {β : Type} (o : Option (β × ℚ)) : ℚ :=
  match o with
  | some p => p.2
  | none => 0

/-- Embeds `_calculate_overall_confidence`: mean of the non-zero entries of a
fixed nine-field subset, 0 when all are zero. -/
def calcOverallConfidence (fc : FieldConfidences) : ℚ :=
  let values := [fc.date, fc.time, fc.duration, fc.distance,
    fc.passengerName, fc.paymentMethod, fc.misIngresos, fc.tarifa,
    fc.totalRecibido]
  let nz := values.filter (fun v => 0 < v)
  if nz = [] then 0 else qdivNat (qsum nz) nz.length

/-- Embeds `ExtractedInDriverRide` from `schemas.py` (the `extracted_at` wall-clock
stamp is omitted: it is never exported to CSV and no claim touches it; the
random `id` default is the empty string here, with the service assigning
ids from an explicit supply). -/
structure Ride where
  id : String := ""
  sourceImagePath : String := ""
  extractionConfidence : ℚ := 0
  date : Option Ymd := none
  time : String := ""
  destinationAddress : String := ""
  duration : Option (Nat × DurationUnit) := none
  distance : Option (ℚ × DistanceUnit) := none
  passengerName : String := ""
  ratingGiven : Option Nat := none
  status : RideStatus := .completed
  cancellationReason : Option String := none
  paymentMethod : PaymentMethod := .cash
  paymentMethodLabel : String := ""
  tarifa : ℚ := 0
  totalRecibido : ℚ := 0
  comisionServicio : ℚ := 0
  comisionPorcentaje : ℚ := mkRat 19 2
  ivaPagoServicio : ℚ := 0
  totalPagado : ℚ := 0
  misIngresos : ℚ := 0
  rawOcrText : String := ""
  fieldConfidences : FieldConfidences := {}
deriving DecidableEq, Repr

/-- Embeds `InDriverTextParser.parse`: the only uncaught exception path is the
`float(pct_str)` conversion inside `_parse_financial_data`, surfaced here
as `Except.error`. -/
def parseRideC (ocr : Chars) : Except String Ride := do
  let text := cleanText ocr
  let lines := splitLines text
  let dateR := parseDate text
  let timeR := parseTime text
  let durR := parseDuration text
  let distR := parseDistance text
  let (status, _) := parseStatus text
  let (pay, payLabel, payConf) := parsePaymentMethod text
  let (fin, pct) ← parseFinancialData text
  let (dest, name) := parsePassengerAndDestination lines
  let misIngresos := fin.misIngresos.getD 0
  let tarifa := fin.tarifa.getD 0
  let totalRecibido := fin.totalRecibido.getD 0
  let comisionServicio := fin.comision.getD 0
  let ivaPagoServicio := fin.iva.getD 0
  let totalPagado := fin.totalPagado.getD 0
  let passengerName := String.mk (name.getD [])
  let destination := String.mk (dest.getD [])
  let fc : FieldConfidences :=
    { date := confOf dateR
      time := confOf timeR
      duration := confOf durR
      distance := confOf distR
      paymentMethod := payConf
      misIngresos := if 0 < misIngresos then mkRat 9 10 else 0
      tarifa := if 0 < tarifa then mkRat 9 10 else 0
      totalRecibido := if 0 < totalRecibido then mkRat 9 10 else 0
      comisionServicio := if 0 < comisionServicio then mkRat 9 10 else 0
      ivaPagoServicio := if 0 < ivaPagoServicio then mkRat 9 10 else 0
      totalPagado := if 0 < totalPagado then mkRat 9 10 else 0
      passengerName := if passengerName ≠ "" then mkRat 8 10 else 0
      destinationAddress := if destination ≠ "" then mkRat 7 10 else 0 }
  pure
    { id := ""
      sourceImagePath := ""
      extractionConfidence := calcOverallConfidence fc
      date := dateR.map Prod.fst
      time := (timeR.map Prod.fst).getD ""
      destinationAddress := destination
      duration := durR.map Prod.fst
      distance := distR.map Prod.fst
      passengerName := passengerName
      ratingGiven := parseRating text
      status := status
      cancellationReason :=
        if status ≠ .completed then some "El pasajero canceló" else none
      paymentMethod := pay
      paymentMethodLabel := payLabel
      tarifa := tarifa
      totalRecibido := totalRecibido
      comisionServicio := comisionServicio
      comisionPorcentaje := pct.getD (mkRat 19 2)
      ivaPagoServicio := ivaPagoServicio
      totalPagado := totalPagado
      misIngresos := misIngresos
      rawOcrText := String.mk ocr
      fieldConfidences := fc }

def parseRide (ocr : String) : Except String Ride := parseRideC ocr.data

def padNat (w n : Nat) : String :=
  let s := toString n
  String.mk (List.replicate (w - s.length) '0') ++ s

/-- Least `k ≤ 30` with `den ∣ 10 ^ k`: the exact-decimal exponent. -/
def decExp (den : Nat) : Option Nat :=
  (List.range 31).find? (fun k => 10 ^ k % den = 0)

/-- Python `str()` of a float.  The floats of this code are exact decimals
(modelled as `ℚ`), for which `str` prints the decimal expansion with no
trailing zero, and `.0` for integers. -/
def pyStr (q : ℚ) : String :=
  let sign := if q < 0 then "-" else ""
  let n := q.num.natAbs
  let d := q.den
  match decExp d with
  | some k =>
    let m := n * 10 ^ k / d
    if k = 0 then sign ++ toString m ++ ".0"
    else sign ++ toString (m / 10 ^ k) ++ "." ++ padNat k (m % 10 ^ k)
  | none => sign ++ toString n ++ " div " ++ toString d

/-- Python `f"{x:.2f}"`.  The claims only evaluate it on exact multiples of
0.01, where no rounding occurs (ties are taken half-up here; Python rounds
the underlying binary value half-even, and the two agree away from ties). -/
def pyF2 (q : ℚ) : String :=
  let sign := if q < 0 then "-" else ""
  let m := (qfloor (qadd (qmul (qabs q) 100) (mkRat 1 2))).toNat
  sign ++ toString (m / 100) ++ "." ++ padNat 2 (m % 100)

/-- Python `round(x, 2)` (same tie caveat as `pyF2`). -/
def round2 (q : ℚ) : ℚ := mkRat (qfloor (qadd (qmul q 100) (mkRat 1 2))) 100

/-- The net-income check of `validate_financial_consistency`. -/
def netCheck (r : Ride) : Option String :=
  if 0 < r.totalRecibido ∧ 0 < r.totalPagado then
    let expected := qsub r.totalRecibido r.totalPagado
    if 1 < qabs (qsub r.misIngresos expected) then
      some ("Net income mismatch: expected " ++ pyStr expected ++ ", got " ++
        pyStr r.misIngresos)
    else none
  else none

/-- The commission check of `validate_financial_consistency`. -/
def commissionCheck (r : Ride) : Option String :=
  if 0 < r.tarifa ∧ 0 < r.comisionPorcentaje then
    let expected := qmul r.tarifa (qdivNat r.comisionPorcentaje 100)
    if 1 < qabs (qsub r.comisionServicio expected) then
      some ("Commission mismatch: expected " ++ pyF2 expected ++ ", got " ++
        pyStr r.comisionServicio)
    else none
  else none

/-- The IVA (19% of commission) check of `validate_financial_consistency`. -/
def ivaCheck (r : Ride) : Option String :=
  if 0 < r.comisionServicio then
    let expected := qmul r.comisionServicio (mkRat 19 100)
    if 1 < qabs (qsub r.ivaPagoServicio expected) then
      some ("IVA mismatch: expected " ++ pyF2 expected ++ ", got " ++
        pyStr r.ivaPagoServicio)
    else none
  else none

/-- The total-paid check of `validate_financial_consistency`; note the
guard is a disjunction: commission *or* IVA non-zero. -/
def totalPaidCheck (r : Ride) : Option String :=
  if 0 < r.comisionServicio ∨ 0 < r.ivaPagoServicio then
    let expected := qadd r.comisionServicio r.ivaPagoServicio
    if 1 < qabs (qsub r.totalPagado expected) then
      some ("Total paid mismatch: expected " ++ pyF2 expected ++ ", got " ++
        pyStr r.totalPagado)
    else none
  else none

/-- Embeds `validate_financial_consistency`: the four checks in order, errors
accumulated, valid iff none fired; tolerance fixed at 1.0. -/
def validateFinancialConsistency (r : Ride) : Bool × List String :=
  let errors := (netCheck r).toList ++ (commissionCheck r).toList ++
    (ivaCheck r).toList ++ (totalPaidCheck r).toList
  (errors.isEmpty, errors)

/-- The acceptance gate of `_extract_from_image` (line 192): reject when
net income and fare are zero and there is no passenger name; date and
status play no role on this path. -/
def imageGateRejects (r : Ride) : Bool :=
  r.misIngresos = 0 ∧ r.tarifa = 0 ∧ r.passengerName = ""

/-- The acceptance gate of `_extract_from_pdf` (lines 245-249): reject when
there is no financial signal, no identity signal, and the status is not a
cancellation. -/
def pdfGateRejects (r : Ride) : Bool :=
  ¬ (0 < r.misIngresos ∨ 0 < r.tarifa) ∧
    ¬ (r.passengerName ≠ "" ∨ r.date ≠ none) ∧
    ¬ (r.status ≠ .completed)

/-- The OCR / PDF-rendering boundary: a deterministic stub assigning OCR
text to image bytes and per-page OCR texts to PDF bytes (decode,
pre-processing and the OCR engine composed, as §6 of the spec describes
the external side of the boundary). -/
structure OcrEnv where
  imageText : String → String
  pdfPages : String → List String

structure ExtractionError where
  fileName : String
  error : String
deriving DecidableEq, Repr

structure ExtractionSummary where
  totalFiles : Nat
  successfulExtractions : Nat
  failedExtractions : Nat
  averageConfidence : ℚ
deriving DecidableEq, Repr

structure ExtractResponse where
  success : Bool
  results : List Ride
  errors : List ExtractionError
  summary : ExtractionSummary
deriving DecidableEq, Repr

/-- Embeds `_extract_from_image` given the OCR text of the image: empty text is a
per-unit failure, a parser exception is converted to a per-unit failure,
and the acceptance gate runs after the uuid is assigned.  `uuids k` is the
`str(uuid.uuid4())` call; the returned counter advances exactly when the
Python code reaches that call. -/
def extractFromImage (uuids : Nat → String) (k : Nat) (text fileName : String) :
    (Option Ride × Option String) × Nat :=
  if (stripPy text.data).isEmpty then
    ((none, some "No text detected in image"), k)
  else
    match parseRide text with
    | .error e => ((none, some ("Image processing error: " ++ e)), k)
    | .ok r0 =>
      let r := { r0 with sourceImagePath := fileName, id := uuids k }
      if imageGateRejects r then
        ((none, some "Could not extract required fields from image"), k + 1)
      else ((some r, none), k + 1)

/-- The per-page body of `_extract_from_pdf`. -/
def extractPdfPage (uuids : Nat → String) (k : Nat) (text fileName : String)
    (pageNum : Nat) : (Option Ride × Option String) × Nat :=
  if (stripPy text.data).isEmpty then
    ((none, some ("No text detected in PDF page " ++ toString pageNum)), k)
  else
    match parseRide text with
    | .error e =>
      ((none, some ("Page " ++ toString pageNum ++ " error: " ++ e)), k)
    | .ok r0 =>
      let r := { r0 with
        sourceImagePath := fileName ++ " (page " ++ toString pageNum ++ ")"
        id := uuids k }
      if pdfGateRejects r then
        ((none, some ("Could not extract required fields from page " ++
          toString pageNum)), k + 1)
      else ((some r, none), k + 1)

def extractPdfPagesLoop (uuids : Nat → String) (fileName : String) :
    List String → Nat → Nat → List (Option Ride × Option String) × Nat
  | [], _, k => ([], k)
  | text :: rest, pageNum, k =>
    let u := extractPdfPage uuids k text fileName pageNum
    let us := extractPdfPagesLoop uuids fileName rest (pageNum + 1) u.2
    (u.1 :: us.1, us.2)

/-- Embeds `_extract_from_pdf` given the rendered pages (pages enumerated from 1;
an empty page list is the `"No pages found in PDF"` failure). -/
def extractFromPdf (uuids : Nat → String) (k : Nat) (pages : List String)
    (fileName : String) : List (Option Ride × Option String) × Nat :=
  if pages.isEmpty then ([(none, some "No pages found in PDF")], k)
  else extractPdfPagesLoop uuids fileName pages 1 k

/-- Embeds `file_name.lower().endswith(".pdf")`. -/
def isPdfName (name : String) : Bool :=
  startsWith ['f', 'd', 'p', '.'] ((name.data.map lowerCh).reverse)

/-- Embeds `extract_from_bytes`: dispatch on the file extension. -/
def extractFromBytes (env : OcrEnv) (uuids : Nat → String) (k : Nat)
    (bytes name : String) : List (Option Ride × Option String) × Nat :=
  if isPdfName name then extractFromPdf uuids k (env.pdfPages bytes) name
  else
    let u := extractFromImage uuids k (env.imageText bytes) name
    ([u.1], u.2)

/-- The per-file accumulation inside `extract_batch`: a unit with a ride
goes to `results`, otherwise its error goes to `errors` tagged with the
original file name. -/
def collectUnits (name : String) (units : List (Option Ride × Option String)) :
    List Ride × List ExtractionError :=
  units.foldr
    (fun u acc =>
      match u with
      | (some r, _) => (r :: acc.1, acc.2)
      | (none, some e) => (acc.1, ⟨name, e⟩ :: acc.2)
      | (none, none) => acc)
    ([], [])

def batchLoop (env : OcrEnv) (uuids : Nat → String) :
    List (String × String) → Nat → List Ride × List ExtractionError
  | [], _ => ([], [])
  | (bytes, name) :: rest, k =>
    let units := extractFromBytes env uuids k bytes name
    let c := collectUnits name units.1
    let r := batchLoop env uuids rest units.2
    (c.1 ++ r.1, c.2 ++ r.2)

/-- Embeds `extract_batch`. -/
def extractBatch (env : OcrEnv) (uuids : Nat → String)
    (files : List (String × String)) : ExtractResponse :=
  let results := (batchLoop env uuids files 0).1
  let errors := (batchLoop env uuids files 0).2
  let successful := results.length
  let failed := errors.length
  let avg :=
    if 0 < successful then
      qdivNat (qsum (results.map Ride.extractionConfidence)) successful
    else 0
  { success := 0 < successful
    results := results
    errors := errors
    summary :=
      { totalFiles := files.length
        successfulExtractions := successful
        failedExtractions := failed
        averageConfidence := round2 avg } }

/-- Minimal quoting of Python `csv.writer`: quote a field containing the
delimiter, the quote char, or a line break, doubling inner quotes. -/
def csvField (f : String) : String :=
  if f.data.any (fun c => c = ',' ∨ c = '"' ∨ c = '\r' ∨ c = '\n') then
    "\"" ++ String.mk (f.data.foldr
      (fun c acc => if c = '"' then '"' :: '"' :: acc else c :: acc) []) ++ "\""
  else f

def csvRow (fields : List String) : String :=
  String.intercalate "," (fields.map csvField) ++ "\r\n"

def csvHeader : List String :=
  ["ID", "Fecha", "Hora", "Pasajero", "Destino", "Duración (min)",
   "Distancia (km)", "Estado", "Método de Pago", "Tarifa (COP)",
   "Total Recibido (COP)", "Comisión (COP)", "IVA (COP)",
   "Total Pagado (COP)", "Mis Ingresos (COP)", "Calificación"]

def statusValue : RideStatus → String
  | .completed => "completed"
  | .cancelledByPassenger => "cancelled_by_passenger"
  | .cancelledByDriver => "cancelled_by_driver"

/-- One data row of `export_to_csv`. -/
def rideRow (r : Ride) : List String :=
  [r.id,
   match r.date with
   | some d => padNat 4 d.year ++ "-" ++ pad2 d.month ++ "-" ++ pad2 d.day
   | none => "",
   r.time,
   r.passengerName,
   r.destinationAddress,
   match r.duration with | some (v, _) => toString v | none => "0",
   match r.distance with | some (v, _) => pyStr v | none => "0",
   statusValue r.status,
   r.paymentMethodLabel,
   pyStr r.tarifa,
   pyStr r.totalRecibido,
   pyStr r.comisionServicio,
   pyStr r.ivaPagoServicio,
   pyStr r.totalPagado,
   pyStr r.misIngresos,
   match r.ratingGiven with | some n => toString n | none => ""]

/-- Embeds `export_to_csv`. -/
def exportToCsv (rides : List Ride) : String :=
  csvRow csvHeader ++ String.join (rides.map (fun r => csvRow (rideRow r)))

/-- Blank out the random uuid of a ride (used to state what *is*
deterministic about the batch pipeline). -/
def eraseId (r : Ride) : Ride := { r with id := "" }

/-- Modelled from the claim wording of C7, for comparison with the code:
the *nearest preceding* label of a token, i.e. among the labels found at a
positive offset strictly before the token, the one with the greatest
offset. -/
def nearestPrecedingLabel (lp : LabelPos) (pos : Int) : Option FinField :=
  (priorityOrder.filter (fun F => lp.get F > 0 ∧ pos > lp.get F)).foldl
    (fun best F =>
      match best with
      | none => some F
      | some G => if lp.get G < lp.get F then some F else best)
    none

/-- The record parsed from the empty OCR string (used as a witness). -/
def emptyParsed : Ride :=
  match parseRide "" with
  | .ok r => r
  | .error _ => {}

/-- The reconciliation example of §8 of the spec: fare 15000, commission
9.5% = 1425, IVA 270.75, total paid 1695.75, total received 15000, net
13304.25. -/
def specRide : Ride :=
  { tarifa := 15000, comisionServicio := 1425, comisionPorcentaje := mkRat 19 2,
    ivaPagoServicio := mkRat 27075 100, totalPagado := mkRat 169575 100,
    totalRecibido := 15000, misIngresos := mkRat 1330425 100 }

/-- Copy of `specRide` with net income altered to 5000. -/
def specRideBadNet : Ride := { specRide with misIngresos := 5000 }

/-- A ride whose seven financial quantities are all zero. -/
def zeroFinRide : Ride := { comisionPorcentaje := 0 }

/-- A ride with zero commission but non-zero IVA: the total-paid check has
a zero input quantity yet still fires. -/
def ivaOnlyRide : Ride := { comisionPorcentaje := 0, ivaPagoServicio := 100 }

/-- A financially empty, cancelled ride with no passenger and no date. -/
def cancelledEmptyRide : Ride :=
  { status := .cancelledByPassenger, passengerName := "", date := none }

/-- A deterministic one-image stub whose OCR text is a bare passenger
name (enough to pass the acceptance gate). -/
def envCarlos : OcrEnv := { imageText := fun _ => "Carlos", pdfPages := fun _ => [] }

def uuidSupplyA : Nat → String := fun n => "a" ++ toString n

def uuidSupplyB : Nat → String := fun n => "b" ++ toString n

def oneImageFile : List (String × String) := [("bytes", "receipt.png")]

/-- A financially empty, cancelled ride as parsed from a minimal cancelled
receipt text. -/
def cancParsed : Ride :=
  match parseRide "pasajero canceló" with
  | .ok r => r
  | .error _ => {}

/-- The C7 counterexample text: the totalPagado label precedes the tarifa
label, which in turn is the nearest label preceding the currency token. -/
def c7txt : Chars := "x Total pagado Tarifa COP 5.000".data

end Wego

namespace Wego

theorem qadd_eq (a b : ℚ) : qadd a b = a + b := (Rat.add_def' a b).symm

theorem qsub_eq (a b : ℚ) : qsub a b = a - b := (Rat.sub_def' a b).symm

theorem qmul_eq (a b : ℚ) : qmul a b = a * b := by
  unfold qmul
  rw [Rat.mul_def, Rat.normalize_eq_mkRat]

theorem qdivNat_eq (a : ℚ) (n : Nat) : qdivNat a n = a / (n : ℚ) := by
  unfold qdivNat
  rcases eq_or_ne n 0 with h | h
  · subst h; simp
  · rw [Rat.mkRat_eq_divInt, Rat.divInt_eq_div]
    push_cast
    rw [← div_div, Rat.num_div_den]

theorem qabs_eq (a : ℚ) : qabs a = |a| := by
  unfold qabs
  rcases le_or_lt 0 a with h | h
  · rw [abs_of_nonneg h]
    rw [show ((a.num.natAbs : Int)) = a.num from
      Int.natAbs_of_nonneg (Rat.num_nonneg.mpr h)]
    exact Rat.mkRat_self a
  · rw [abs_of_neg h]
    have hn : a.num < 0 := Rat.num_neg.mpr h
    rw [show ((a.num.natAbs : Int)) = -a.num by omega]
    rw [show (-a.num) = (-a).num from (Rat.neg_num a).symm,
      show a.den = (-a).den from (Rat.neg_den a).symm]
    exact Rat.mkRat_self (-a)

theorem qsum_eq (l : List ℚ) : qsum l = l.sum := by
  induction l with
  | nil => rfl
  | cons x xs ih =>
    simp only [qsum, List.foldr_cons, List.sum_cons] at ih ⊢
    rw [qadd_eq, ih]

theorem qfloor_eq (a : ℚ) : qfloor a = ⌊a⌋ := Rat.floor_def.symm

theorem finMap_get_set_ne (m : FinMap) (F G : FinField) (v : ℚ) (h : F ≠ G) :
    (m.set G v).get F = m.get F := by
  cases F <;> cases G <;> simp_all [FinMap.set, FinMap.get]

theorem finMap_get_empty (F : FinField) : ({} : FinMap).get F = none := by
  cases F <;> rfl

/-- The if/elif assignment chain is the first hit in the explicit priority
list: shared bridge between `assignOne` and `pickLabel`. -/
theorem assignOne_eq_pick (lp : LabelPos) (res : FinMap) (pos : Int) (v : ℚ) :
    assignOne lp res pos v =
      match pickLabel lp res pos with
      | some F => res.set F v
      | none => res := by
  by_cases h1 : lp.totalPagado > 0 ∧ pos > lp.totalPagado ∧ res.totalPagado = none
  · simp [assignOne, pickLabel, priorityOrder, List.find?, LabelPos.get,
      FinMap.get, FinMap.set, h1]
  by_cases h2 : lp.iva > 0 ∧ pos > lp.iva ∧ res.iva = none
  · simp [assignOne, pickLabel, priorityOrder, List.find?, LabelPos.get,
      FinMap.get, FinMap.set, h1, h2]
  by_cases h3 : lp.comision > 0 ∧ pos > lp.comision ∧ res.comision = none
  · simp [assignOne, pickLabel, priorityOrder, List.find?, LabelPos.get,
      FinMap.get, FinMap.set, h1, h2, h3]
  by_cases h4 : lp.totalRecibido > 0 ∧ pos > lp.totalRecibido ∧ res.totalRecibido = none
  · simp [assignOne, pickLabel, priorityOrder, List.find?, LabelPos.get,
      FinMap.get, FinMap.set, h1, h2, h3, h4]
  by_cases h5 : lp.tarifa > 0 ∧ pos > lp.tarifa ∧ res.tarifa = none
  · simp [assignOne, pickLabel, priorityOrder, List.find?, LabelPos.get,
      FinMap.get, FinMap.set, h1, h2, h3, h4, h5]
  by_cases h6 : lp.misIngresos > 0 ∧ pos > lp.misIngresos ∧ res.misIngresos = none
  · simp [assignOne, pickLabel, priorityOrder, List.find?, LabelPos.get,
      FinMap.get, FinMap.set, h1, h2, h3, h4, h5, h6]
  · simp [assignOne, pickLabel, priorityOrder, List.find?, LabelPos.get,
      FinMap.get, FinMap.set, h1, h2, h3, h4, h5, h6]

theorem assignOne_preserves_some (lp : LabelPos) (res : FinMap) (pos : Int)
    (v : ℚ) (F : FinField) (w : ℚ) (h : res.get F = some w) :
    (assignOne lp res pos v).get F = some w := by
  rw [assignOne_eq_pick]
  cases hp : pickLabel lp res pos with
  | none => exact h
  | some G =>
    have hG := List.find?_some hp
    simp only [decide_eq_true_eq] at hG
    have hne : F ≠ G := by
      intro e
      rw [← e] at hG
      rw [h] at hG
      simp at hG
    rw [finMap_get_set_ne _ _ _ _ hne]
    exact h

theorem assignOne_nonpos_none (lp : LabelPos) (res : FinMap) (pos : Int)
    (v : ℚ) (F : FinField) (hlp : lp.get F ≤ 0) (h : res.get F = none) :
    (assignOne lp res pos v).get F = none := by
  rw [assignOne_eq_pick]
  cases hp : pickLabel lp res pos with
  | none => exact h
  | some G =>
    have hG := List.find?_some hp
    simp only [decide_eq_true_eq] at hG
    have hne : F ≠ G := by
      intro e
      rw [← e] at hG
      omega
    rw [finMap_get_set_ne _ _ _ _ hne]
    exact h

theorem runAssign_nonpos_none (lp : LabelPos) (F : FinField)
    (hlp : lp.get F ≤ 0) :
    ∀ (tokens : List (Nat × Chars)) (res : FinMap), res.get F = none →
      (tokens.foldl
        (fun res t =>
          match currencyValue t.2 with
          | some v => assignOne lp res (t.1 : Int) v
          | none => res) res).get F = none := by
  intro tokens
  induction tokens with
  | nil => intro res h; exact h
  | cons t ts ih =>
    intro res h
    simp only [List.foldl_cons]
    cases hv : currencyValue t.2 with
    | none => simp only [hv]; exact ih res h
    | some v =>
      simp only [hv]
      exact ih _ (assignOne_nonpos_none lp res _ v F hlp h)

/-- C3 (code bug): the financial extractor does not parse Colombian
currency notation as specified.  The token `1.695,75` after the label
`Total pagado` is parsed to 1.69575 instead of 1695.75: the comma is
deleted as if it were a thousands separator and the period kept as a
decimal point, the opposite of the Colombian convention that the spec and
the repository's own unit tests
(`test_text_parser.py::test_parse_financial_total_pagado`,
`test_colombian_currency.py`) require. -/
theorem c3_colombian_currency_misparsed :
    currencyValue "1.695,75".data = some (6783/4000) ∧
    parseFinancialData " Total pagado COP 1.695,75".data =
      .ok ({ totalPagado := some (6783/4000) }, none) ∧
    (6783/4000 : ℚ) ≠ 169575/100 := by
  have h : (6783/4000 : ℚ) = mkRat 6783 4000 := by
    norm_num [Rat.mkRat_eq_divInt, Rat.divInt_eq_div]
  refine ⟨by rw [h]; decide, by rw [h]; decide, by norm_num⟩

/-- C4: the distance extractor returns 5.9, 15.0, 6.4 and 12.5 for
`59 km`, `15 km`, `6,4 km` and `12,5 km`; in general, for kilometre
tokens a parsed value ≥ 20 is divided by 10 unconditionally, and a value
in [10, 20) is divided by 10 exactly when the raw matched token contains
no decimal-separator character (comma, period or space). -/
theorem c4_distance_heuristic :
    parseDistance "59 km".data = some ((59/10, .kilometers), 9/10) ∧
    parseDistance "15 km".data = some ((15, .kilometers), 9/10) ∧
    parseDistance "6,4 km".data = some ((32/5, .kilometers), 9/10) ∧
    parseDistance "12,5 km".data = some ((25/2, .kilometers), 9/10) ∧
    (∀ g v, 20 ≤ v → distanceCorrect .kilometers g v = v / 10) ∧
    (∀ g v, 10 ≤ v → hasDecSep g = false →
      distanceCorrect .kilometers g v = v / 10) ∧
    (∀ g v, 10 ≤ v → v < 20 → hasDecSep g = true →
      distanceCorrect .kilometers g v = v) := by
  have h10 : ∀ v : ℚ, qdivNat v 10 = v / 10 := by
    intro v
    rw [qdivNat_eq]
    norm_num
  have e1 : (59/10 : ℚ) = mkRat 59 10 := by
    norm_num [Rat.mkRat_eq_divInt, Rat.divInt_eq_div]
  have e2 : (32/5 : ℚ) = mkRat 32 5 := by
    norm_num [Rat.mkRat_eq_divInt, Rat.divInt_eq_div]
  have e3 : (25/2 : ℚ) = mkRat 25 2 := by
    norm_num [Rat.mkRat_eq_divInt, Rat.divInt_eq_div]
  have e4 : (9/10 : ℚ) = mkRat 9 10 := by
    norm_num [Rat.mkRat_eq_divInt, Rat.divInt_eq_div]
  refine ⟨by rw [e1, e4]; decide, by rw [e4]; decide, by rw [e2, e4]; decide,
    by rw [e3, e4]; decide, ?_, ?_, ?_⟩
  · intro g v h
    simp [distanceCorrect, h, h10]
  · intro g v h hsep
    by_cases h20 : 20 ≤ v
    · simp [distanceCorrect, h20, h10]
    · simp [distanceCorrect, h20, h, hsep, h10]
  · intro g v hv h20 hsep
    have h20n : ¬ 20 ≤ v := not_le.mpr h20
    simp [distanceCorrect, h20n, hsep]

/-- Witness for C4 at concrete tokens: the matched token of `59 km` is
`"59 "` and 59 becomes 5.9; a bare `15` with no separator becomes 1.5;
the token `12,5` keeps its value 12.5. -/
theorem c4_witness :
    distanceCorrect .kilometers ['5', '9', ' '] 59 = 59 / 10 ∧
    distanceCorrect .kilometers ['1', '5'] 15 = 15 / 10 ∧
    distanceCorrect .kilometers ['1', '2', ',', '5'] (25/2) = 25/2 :=
  ⟨c4_distance_heuristic.2.2.2.2.1 _ _ (by norm_num),
   c4_distance_heuristic.2.2.2.2.2.1 _ _ (by norm_num) (by decide),
   c4_distance_heuristic.2.2.2.2.2.2 _ _ (by norm_num) (by norm_num)
     (by decide)⟩

/-- C5: the reconciliation example (fare 15000, commission 9.5% = 1425,
IVA 270.75, total paid 1695.75, total received 15000, net 13304.25)
validates as `(True, [])`; with net income changed to 5000 the validator
returns `(False, [...])` whose single message names the net-income check
and the expected value 13304.25. -/
theorem c5_financial_reconciliation :
    validateFinancialConsistency specRide = (true, []) ∧
    validateFinancialConsistency specRideBadNet =
      (false, ["Net income mismatch: expected 13304.25, got 5000.0"]) ∧
    containsSub "Net income".data
      "Net income mismatch: expected 13304.25, got 5000.0".data = true ∧
    containsSub "13304.25".data
      "Net income mismatch: expected 13304.25, got 5000.0".data = true :=
  ⟨by decide, by decide, by decide, by decide⟩

/-- C6 (code bug): the date regex requires the weekday abbreviation — the
group `(?:lun|mar|mi[eé]|jue|vie|s[aá]b|dom)` carries no `?` — so
`2 dic 2025`, documented in the source comment as a supported form,
yields no date; with the weekday present the triple is returned exactly
with confidence 0.95, and an unrecognized month abbreviation yields no
match (and never raises). -/
theorem c6_weekday_required_by_date_regex :
    parseDate "2 dic 2025".data = none ∧
    parseDate "mar, 2 dic 2025".data = some (⟨2025, 12, 2⟩, 95/100) ∧
    parseDate "mar, 2 xyz 2025".data = none := by
  have h : (95/100 : ℚ) = mkRat 95 100 := by
    norm_num [Rat.mkRat_eq_divInt, Rat.divInt_eq_div]
  exact ⟨by decide, by rw [h]; decide, by decide⟩

/-- C7 (amended): each currency token is assigned to the *first label in
the fixed priority list* total_pagado > iva > comision > total_recibido >
tarifa > mis_ingresos whose first occurrence sits at a positive offset
strictly before the token and is not yet claimed — the distance from token
to label is never compared, so this is not the nearest preceding label in
general; an already claimed label is never overwritten (each label claimed
at most once); a token preceded by no label leaves the result unchanged. -/
theorem c7_priority_first_assignment (lp : LabelPos) (res : FinMap)
    (pos : Int) (v : ℚ) :
    (assignOne lp res pos v =
      match pickLabel lp res pos with
      | some F => res.set F v
      | none => res) ∧
    (∀ F w, res.get F = some w → (assignOne lp res pos v).get F = some w) ∧
    (pickLabel lp res pos = none → assignOne lp res pos v = res) := by
  refine ⟨assignOne_eq_pick lp res pos v, ?_, ?_⟩
  · intro F w h
    exact assignOne_preserves_some lp res pos v F w h
  · intro h
    rw [assignOne_eq_pick, h]

/-- Witness for C7 at concrete data: a claimed tarifa label keeps its
value, and a token with no preceding label assigns nothing. -/
theorem c7_witness :
    (assignOne { tarifa := 1 } { tarifa := some 3 } 5 7).get .tarifa =
      some 3 ∧
    assignOne {} {} 5 7 = {} :=
  ⟨(c7_priority_first_assignment { tarifa := 1 } { tarifa := some 3 } 5 7).2.1
      .tarifa 3 rfl,
   (c7_priority_first_assignment {} {} 5 7).2.2 (by decide)⟩

/-- Counterexample to C7 as stated: in
`"x Total pagado Tarifa COP 5.000"` the currency token starts at offset
22, the tarifa label at 15 and the total-pagado label at 2, so the
*nearest preceding* label is tarifa — yet the code assigns the value to
total_pagado (higher priority) and tarifa stays empty. -/
theorem c7_counterexample :
    nearestPrecedingLabel (labelPositions c7txt) 22 = some .tarifa ∧
    currencyMatches c7txt = [(22, ['5', '.', '0', '0', '0'])] ∧
    (labelPositions c7txt).tarifa = 15 ∧
    (labelPositions c7txt).totalPagado = 2 ∧
    (finAssign c7txt).tarifa = none ∧
    (finAssign c7txt).totalPagado = some 5 := by
  refine ⟨by decide, by decide, by decide, by decide, by decide, by decide⟩

/-- C8 (amended): the net-income check runs only when total received and
total paid are both non-zero, the commission check only when fare and
percentage are both non-zero, the IVA check only when the commission is
non-zero, and the total-paid check when the commission *or* the IVA is
non-zero (a disjunction, so a zero commission does not by itself silence
it); a ride with all seven financial quantities zero validates as
`(True, [])`. -/
theorem c8_validator_gating (r : Ride) :
    (r.totalRecibido = 0 ∨ r.totalPagado = 0 → netCheck r = none) ∧
    (r.tarifa = 0 ∨ r.comisionPorcentaje = 0 → commissionCheck r = none) ∧
    (r.comisionServicio = 0 → ivaCheck r = none) ∧
    (r.comisionServicio = 0 ∧ r.ivaPagoServicio = 0 →
      totalPaidCheck r = none) ∧
    (r.tarifa = 0 ∧ r.totalRecibido = 0 ∧ r.comisionServicio = 0 ∧
      r.comisionPorcentaje = 0 ∧ r.ivaPagoServicio = 0 ∧ r.totalPagado = 0 ∧
      r.misIngresos = 0 →
      validateFinancialConsistency r = (true, [])) := by
  refine ⟨?_, ?_, ?_, ?_, ?_⟩
  · rintro (h | h) <;> simp [netCheck, h]
  · rintro (h | h) <;> simp [commissionCheck, h]
  · intro h; simp [ivaCheck, h]
  · rintro ⟨h1, h2⟩; simp [totalPaidCheck, h1, h2]
  · rintro ⟨h1, h2, h3, h4, h5, h6, h7⟩
    simp [validateFinancialConsistency, netCheck, commissionCheck, ivaCheck,
      totalPaidCheck, h1, h2, h3, h4, h5, h6, h7]

/-- Witness for C8 at the all-zero ride. -/
theorem c8_witness :
    netCheck zeroFinRide = none ∧ commissionCheck zeroFinRide = none ∧
    ivaCheck zeroFinRide = none ∧ totalPaidCheck zeroFinRide = none ∧
    validateFinancialConsistency zeroFinRide = (true, []) :=
  ⟨(c8_validator_gating zeroFinRide).1 (Or.inl rfl),
   (c8_validator_gating zeroFinRide).2.1 (Or.inl rfl),
   (c8_validator_gating zeroFinRide).2.2.1 rfl,
   (c8_validator_gating zeroFinRide).2.2.2.1 ⟨rfl, rfl⟩,
   (c8_validator_gating zeroFinRide).2.2.2.2
     ⟨rfl, rfl, rfl, rfl, rfl, rfl, rfl⟩⟩

/-- Counterexample to C8 as stated: a ride with zero commission but IVA
100 and total paid 0 — a zero input field of the total-paid check — still
produces a total-paid error, because that check is gated on a
disjunction. -/
theorem c8_counterexample :
    ivaOnlyRide.comisionServicio = 0 ∧ ivaOnlyRide.totalPagado = 0 ∧
    validateFinancialConsistency ivaOnlyRide =
      (false, ["Total paid mismatch: expected 100.00, got 0.0"]) :=
  ⟨rfl, rfl, by decide⟩

/-- C10: a financial label phrase whose first occurrence begins at
character offset 0 of the (cleaned) text is treated as absent by the
positional assignment — the guard demands a strictly positive offset — so
no currency token is ever assigned to it and its value stays at the 0.0
default. -/
theorem c10_label_at_offset_zero_is_ignored (s : Chars) (F : FinField)
    (h : (labelPositions s).get F = 0) :
    (finAssign s).get F = none ∧ ((finAssign s).get F).getD 0 = 0 := by
  have key : (finAssign s).get F = none := by
    unfold finAssign runAssign
    exact runAssign_nonpos_none (labelPositions s) F (by omega)
      (currencyMatches s) {} (finMap_get_empty F)
  exact ⟨key, by rw [key]; rfl⟩

/-- Witness for C10: a text beginning with `Mis ingresos` followed by a
currency token; the label offset is 0 and the field stays empty. -/
theorem c10_witness :
    (labelPositions "Mis ingresos COP 5.000".data).get .misIngresos = 0 ∧
    (finAssign "Mis ingresos COP 5.000".data).get .misIngresos = none :=
  ⟨by decide,
   (c10_label_at_offset_zero_is_ignored "Mis ingresos COP 5.000".data
     .misIngresos (by decide)).1⟩


/-- C1 (amended): the acceptance gate of the claim — reject iff financially
empty (net and fare zero) and no identity (no passenger name, no date) and
status completed — is exactly the gate of the PDF-page path; the
single-image path uses a weaker gate that rejects iff net and fare are
zero and the passenger name is empty, ignoring date and status.  (Both
stated for the non-negative monetary values the parser produces.) -/
theorem c1_acceptance_gates (r : Ride) (hm : 0 ≤ r.misIngresos)
    (ht : 0 ≤ r.tarifa) :
    (pdfGateRejects r = true ↔
      (r.misIngresos = 0 ∧ r.tarifa = 0 ∧ r.passengerName = "" ∧
        r.date = none ∧ r.status = .completed)) ∧
    (imageGateRejects r = true ↔
      (r.misIngresos = 0 ∧ r.tarifa = 0 ∧ r.passengerName = "")) := by
  have e1 : (¬ 0 < r.misIngresos) ↔ r.misIngresos = 0 := by
    constructor
    · intro h; exact le_antisymm (not_lt.mp h) hm
    · intro h; rw [h]; exact lt_irrefl 0
  have e2 : (¬ 0 < r.tarifa) ↔ r.tarifa = 0 := by
    constructor
    · intro h; exact le_antisymm (not_lt.mp h) ht
    · intro h; rw [h]; exact lt_irrefl 0
  constructor
  · simp only [pdfGateRejects, decide_eq_true_eq, not_or, not_ne_iff,
      ne_eq, not_not]
    constructor
    · rintro ⟨⟨ha, hb⟩, ⟨hc, hd⟩, he⟩
      exact ⟨e1.mp ha, e2.mp hb, hc, hd, he⟩
    · rintro ⟨ha, hb, hc, hd, he⟩
      exact ⟨⟨e1.mpr ha, e2.mpr hb⟩, ⟨hc, hd⟩, he⟩
  · simp only [imageGateRejects, decide_eq_true_eq]

/-- Witness for C1 at a concrete financially empty, cancelled ride. -/
theorem c1_witness :
    (pdfGateRejects cancelledEmptyRide = true ↔
      (cancelledEmptyRide.misIngresos = 0 ∧ cancelledEmptyRide.tarifa = 0 ∧
        cancelledEmptyRide.passengerName = "" ∧
        cancelledEmptyRide.date = none ∧
        cancelledEmptyRide.status = .completed)) ∧
    (imageGateRejects cancelledEmptyRide = true ↔
      (cancelledEmptyRide.misIngresos = 0 ∧ cancelledEmptyRide.tarifa = 0 ∧
        cancelledEmptyRide.passengerName = "")) :=
  c1_acceptance_gates cancelledEmptyRide (by decide) (by decide)

/-- Counterexample to C1 as stated: the OCR text `pasajero canceló` parses
to a cancelled record with no money, no passenger and no date — which the
claim says every unit accepts — yet the single-image unit rejects it with
the required-fields failure message. -/
theorem c1_counterexample :
    parseRide "pasajero canceló" = .ok cancParsed ∧
    cancParsed.status = .cancelledByPassenger ∧
    cancParsed.misIngresos = 0 ∧ cancParsed.tarifa = 0 ∧
    cancParsed.passengerName = "" ∧ cancParsed.date = none ∧
    (extractFromImage (fun _ => "u") 0 "pasajero canceló" "r.png").1 =
      (none, some "Could not extract required fields from image") :=
  ⟨by decide, by decide, by decide, by decide, by decide, by decide,
    by decide⟩


theorem parseDate_conf (s : Chars) (x : Ymd × ℚ) (h : parseDate s = some x) :
    x.2 = mkRat 95 100 := by
  unfold parseDate at h
  rcases hm : firstMatch tryDate s with _ | p <;> rw [hm] at h
  · simp at h
  · obtain ⟨i, day, mon, year⟩ := p
    dsimp at h
    split at h
    · cases h; rfl
    · simp at h

theorem parseTime_conf (s : Chars) (x : String × ℚ) (h : parseTime s = some x) :
    x.2 = mkRat 95 100 := by
  unfold parseTime at h
  rcases hm : firstMatch tryTime s with _ | p <;> rw [hm] at h
  · simp at h
  · obtain ⟨i, hh, mins, pm⟩ := p
    cases h; rfl

theorem parseDuration_conf (s : Chars) (x : (Nat × DurationUnit) × ℚ)
    (h : parseDuration s = some x) : x.2 = mkRat 9 10 := by
  unfold parseDuration at h
  rcases hm : firstMatch tryDuration s with _ | p <;> rw [hm] at h
  · simp at h
  · obtain ⟨i, dd, u⟩ := p
    cases h; rfl

theorem parseDistance_conf (s : Chars) (x : (ℚ × DistanceUnit) × ℚ)
    (h : parseDistance s = some x) : x.2 = mkRat 9 10 := by
  unfold parseDistance at h
  rcases hm : firstMatch tryDist s with _ | p <;> rw [hm] at h
  · simp at h
  · obtain ⟨i, g, u⟩ := p
    dsimp at h
    rcases hv : pyFloat (List.map (fun c => if c = ',' ∨ c = ' ' then '.' else c) g)
        with _ | v <;> rw [hv] at h
    · simp at h
    · cases h; rfl

theorem parsePaymentMethod_conf (s : Chars) :
    (parsePaymentMethod s).2.2 = mkRat 95 100 ∨
      (parsePaymentMethod s).2.2 = mkRat 1 2 := by
  unfold parsePaymentMethod
  split_ifs <;> simp

theorem conf_shape {β : Type} (o : Option (β × ℚ)) (c : ℚ)
    (hc : mkRat 1 2 ≤ c) (h : ∀ x, o = some x → x.2 = c) :
    confOf o = 0 ∨ mkRat 1 2 ≤ confOf o := by
  cases o with
  | none => left; rfl
  | some x =>
    right
    show mkRat 1 2 ≤ x.2
    rw [h x rfl]
    exact hc

theorem conf_ite (p : Prop) [Decidable p] (c : ℚ) (hc : mkRat 1 2 ≤ c) :
    (if p then c else 0) = 0 ∨ mkRat 1 2 ≤ (if p then c else 0) := by
  split_ifs
  · right; exact hc
  · left; rfl

theorem sum_ge_half_len (l : List ℚ) (h : ∀ v ∈ l, mkRat 1 2 ≤ v) :
    (l.length : ℚ) * mkRat 1 2 ≤ l.sum := by
  induction l with
  | nil => simp
  | cons x xs ih =>
    have hx := h x (List.mem_cons_self x xs)
    have ihh := ih (fun v hv => h v (List.mem_cons_of_mem _ hv))
    simp only [List.sum_cons, List.length_cons]
    push_cast
    linarith

theorem calc_conf_half (fc : FieldConfidences)
    (h : ∀ v ∈ [fc.date, fc.time, fc.duration, fc.distance, fc.passengerName,
      fc.paymentMethod, fc.misIngresos, fc.tarifa, fc.totalRecibido],
      v = 0 ∨ mkRat 1 2 ≤ v)
    (hp : mkRat 1 2 ≤ fc.paymentMethod) :
    mkRat 1 2 ≤ calcOverallConfidence fc := by
  unfold calcOverallConfidence
  have hppos : (0 : ℚ) < fc.paymentMethod :=
    lt_of_lt_of_le (by decide : (0:ℚ) < mkRat 1 2) hp
  have hmem : fc.paymentMethod ∈
      ([fc.date, fc.time, fc.duration, fc.distance, fc.passengerName,
        fc.paymentMethod, fc.misIngresos, fc.tarifa,
        fc.totalRecibido].filter (fun v => 0 < v)) := by
    apply List.mem_filter.mpr
    refine ⟨by simp, by simpa using hppos⟩
  have hne : ([fc.date, fc.time, fc.duration, fc.distance, fc.passengerName,
      fc.paymentMethod, fc.misIngresos, fc.tarifa,
      fc.totalRecibido].filter (fun v => 0 < v)) ≠ [] :=
    List.ne_nil_of_mem hmem
  rw [if_neg hne, qdivNat_eq, qsum_eq]
  have hall : ∀ v ∈ ([fc.date, fc.time, fc.duration, fc.distance,
      fc.passengerName, fc.paymentMethod, fc.misIngresos, fc.tarifa,
      fc.totalRecibido].filter (fun v => 0 < v)), mkRat 1 2 ≤ v := by
    intro v hv
    obtain ⟨hvmem, hvpos⟩ := List.mem_filter.mp hv
    rcases h v hvmem with h0 | hbig
    · rw [h0] at hvpos; simp at hvpos
    · exact hbig
  have hsum := sum_ge_half_len _ hall
  have hlenpos : (0:ℚ) < (([fc.date, fc.time, fc.duration, fc.distance,
      fc.passengerName, fc.paymentMethod, fc.misIngresos, fc.tarifa,
      fc.totalRecibido].filter (fun v => 0 < v)).length : ℚ) := by
    exact_mod_cast List.length_pos.mpr hne
  rw [le_div_iff₀ hlenpos]
  linarith


/-- C9 (amended): whenever `parse` returns a record (it raises a
`ValueError` on a malformed percentage token, see the counterexample), the
aggregated extraction confidence is at least 0.5: the payment-method score
is always at least 0.5 and always enters the non-zero mean, and every
other aggregated score is 0 or at least 0.5. -/
theorem c9_confidence_floor (s : String) (r : Ride)
    (h : parseRide s = .ok r) : (1:ℚ)/2 ≤ r.extractionConfidence := by
  have h12 : (1:ℚ)/2 = mkRat 1 2 := by
    norm_num [Rat.mkRat_eq_divInt, Rat.divInt_eq_div]
  rw [h12]
  unfold parseRide parseRideC at h
  simp only [] at h
  rcases hst : parseStatus (cleanText s.data) with ⟨status, stc⟩
  rw [hst] at h
  rcases hpm : parsePaymentMethod (cleanText s.data) with ⟨pay, payLabel, payConf⟩
  rw [hpm] at h
  have hpc := parsePaymentMethod_conf (cleanText s.data)
  rw [hpm] at hpc
  dsimp only at h hpc
  cases hfd : parseFinancialData (cleanText s.data) with
  | error e =>
    rw [hfd] at h
    simp [Bind.bind, Except.bind] at h
  | ok fp =>
    rw [hfd] at h
    obtain ⟨fin, pct⟩ := fp
    rcases hpd : parsePassengerAndDestination (splitLines (cleanText s.data))
      with ⟨dest, name⟩
    rw [hpd] at h
    simp only [Bind.bind, Except.bind, pure, Except.pure, Except.ok.injEq] at h
    subst h
    refine calc_conf_half _ ?_ ?_
    · intro v hv
      simp only [List.mem_cons, List.not_mem_nil, or_false] at hv
      rcases hv with h1 | h2 | h3 | h4 | h5 | h6 | h7 | h8 | h9
      · subst h1
        exact conf_shape _ _ (by decide)
          (fun x hx => parseDate_conf _ x hx)
      · subst h2
        exact conf_shape _ _ (by decide)
          (fun x hx => parseTime_conf _ x hx)
      · subst h3
        exact conf_shape _ _ (by decide)
          (fun x hx => parseDuration_conf _ x hx)
      · subst h4
        exact conf_shape _ _ (by decide)
          (fun x hx => parseDistance_conf _ x hx)
      · subst h5
        exact conf_ite _ _ (by decide)
      · subst h6
        right
        rcases hpc with hp | hp <;>
          exact le_trans (by decide) (le_of_eq hp.symm)
      · subst h7
        exact conf_ite _ _ (by decide)
      · subst h8
        exact conf_ite _ _ (by decide)
      · subst h9
        exact conf_ite _ _ (by decide)
    · rcases hpc with hp | hp <;>
        exact le_trans (by decide) (le_of_eq hp.symm)

/-- Witness for C9: the empty input parses, and its confidence is exactly
the payment-method default 0.5. -/
theorem c9_witness :
    parseRide "" = .ok emptyParsed ∧
    (1:ℚ)/2 ≤ emptyParsed.extractionConfidence :=
  ⟨by decide, c9_confidence_floor "" emptyParsed (by decide)⟩

/-- Counterexample to C9 as stated: on the input `,%` the percentage
token `,` reaches the unguarded `float` conversion and `parse` raises
instead of returning a record. -/
theorem c9_counterexample :
    parseRide ",%" = .error "could not convert string to float" := by
  decide

/-- Mask applied to a unit result: the ride (if any) with its uuid
blanked, plus the error. -/
def unitMask (u : Option Ride × Option String) : Option Ride × Option String :=
  (u.1.map eraseId, u.2)

theorem extractFromImage_indep (u1 u2 : Nat → String) (k : Nat)
    (t n : String) :
    unitMask (extractFromImage u1 k t n).1 =
      unitMask (extractFromImage u2 k t n).1 ∧
    (extractFromImage u1 k t n).2 = (extractFromImage u2 k t n).2 := by
  unfold extractFromImage
  split
  · exact ⟨rfl, rfl⟩
  · cases hp : parseRide t with
    | error e => exact ⟨rfl, rfl⟩
    | ok r0 =>
      dsimp only
      have hg : imageGateRejects { r0 with sourceImagePath := n, id := u1 k } =
          imageGateRejects { r0 with sourceImagePath := n, id := u2 k } := rfl
      rw [hg]
      split
      · exact ⟨rfl, rfl⟩
      · exact ⟨rfl, rfl⟩

theorem extractPdfPage_indep (u1 u2 : Nat → String) (k : Nat) (t n : String)
    (pn : Nat) :
    unitMask (extractPdfPage u1 k t n pn).1 =
      unitMask (extractPdfPage u2 k t n pn).1 ∧
    (extractPdfPage u1 k t n pn).2 = (extractPdfPage u2 k t n pn).2 := by
  unfold extractPdfPage
  split
  · exact ⟨rfl, rfl⟩
  · cases hp : parseRide t with
    | error e => exact ⟨rfl, rfl⟩
    | ok r0 =>
      dsimp only
      have hg : pdfGateRejects { r0 with
            sourceImagePath := n ++ " (page " ++ toString pn ++ ")"
            id := u1 k } =
          pdfGateRejects { r0 with
            sourceImagePath := n ++ " (page " ++ toString pn ++ ")"
            id := u2 k } := rfl
      rw [hg]
      split
      · exact ⟨rfl, rfl⟩
      · exact ⟨rfl, rfl⟩

theorem extractPdfPagesLoop_indep (u1 u2 : Nat → String) (n : String) :
    ∀ (pages : List String) (pn k : Nat),
      (extractPdfPagesLoop u1 n pages pn k).1.map unitMask =
        (extractPdfPagesLoop u2 n pages pn k).1.map unitMask ∧
      (extractPdfPagesLoop u1 n pages pn k).2 =
        (extractPdfPagesLoop u2 n pages pn k).2 := by
  intro pages
  induction pages with
  | nil => intro pn k; exact ⟨rfl, rfl⟩
  | cons t rest ih =>
    intro pn k
    obtain ⟨h1, h2⟩ := extractPdfPage_indep u1 u2 k t n pn
    obtain ⟨ih1, ih2⟩ := ih (pn + 1) (extractPdfPage u2 k t n pn).2
    simp only [extractPdfPagesLoop, List.map_cons]
    rw [h1, h2]
    exact ⟨by rw [ih1], ih2⟩

theorem extractFromBytes_indep (env : OcrEnv) (u1 u2 : Nat → String)
    (k : Nat) (b n : String) :
    (extractFromBytes env u1 k b n).1.map unitMask =
      (extractFromBytes env u2 k b n).1.map unitMask ∧
    (extractFromBytes env u1 k b n).2 = (extractFromBytes env u2 k b n).2 := by
  unfold extractFromBytes
  split
  · unfold extractFromPdf
    split
    · exact ⟨rfl, rfl⟩
    · exact extractPdfPagesLoop_indep u1 u2 n (env.pdfPages b) 1 k
  · obtain ⟨h1, h2⟩ := extractFromImage_indep u1 u2 k (env.imageText b) n
    dsimp only
    rw [h2]
    exact ⟨by simp only [List.map_cons, List.map_nil]; rw [h1], rfl⟩

theorem collectUnits_mask (n : String) :
    ∀ (l1 l2 : List (Option Ride × Option String)),
      l1.map unitMask = l2.map unitMask →
      (collectUnits n l1).1.map eraseId = (collectUnits n l2).1.map eraseId ∧
      (collectUnits n l1).2 = (collectUnits n l2).2 := by
  intro l1
  induction l1 with
  | nil =>
    intro l2 h
    cases l2 with
    | nil => exact ⟨rfl, rfl⟩
    | cons u l => simp at h
  | cons u1 rest1 ih =>
    intro l2 h
    cases l2 with
    | nil => simp at h
    | cons u2 rest2 =>
      obtain ⟨o1, e1⟩ := u1
      obtain ⟨o2, e2⟩ := u2
      simp only [List.map_cons, List.cons.injEq, unitMask, Prod.mk.injEq]
        at h
      obtain ⟨⟨hu1, hu2⟩, hrest⟩ := h
      obtain ⟨ihr, ihe⟩ := ih rest2 hrest
      subst hu2
      cases o1 with
      | some r1 =>
        cases o2 with
        | some r2 =>
          simp only [Option.map_some', Option.some.injEq] at hu1
          refine ⟨?_, ?_⟩
          · show eraseId r1 :: (collectUnits n rest1).1.map eraseId =
              eraseId r2 :: (collectUnits n rest2).1.map eraseId
            rw [hu1, ihr]
          · show (collectUnits n rest1).2 = (collectUnits n rest2).2
            exact ihe
        | none => simp at hu1
      | none =>
        cases o2 with
        | some r2 => simp at hu1
        | none =>
          cases e1 with
          | none => exact ⟨ihr, ihe⟩
          | some e =>
            refine ⟨ihr, ?_⟩
            show (⟨n, e⟩ : ExtractionError) :: (collectUnits n rest1).2 =
              (⟨n, e⟩ : ExtractionError) :: (collectUnits n rest2).2
            rw [ihe]

theorem batchLoop_indep (env : OcrEnv) (u1 u2 : Nat → String) :
    ∀ (files : List (String × String)) (k : Nat),
      (batchLoop env u1 files k).1.map eraseId =
        (batchLoop env u2 files k).1.map eraseId ∧
      (batchLoop env u1 files k).2 = (batchLoop env u2 files k).2 := by
  intro files
  induction files with
  | nil => intro k; exact ⟨rfl, rfl⟩
  | cons f rest ih =>
    intro k
    obtain ⟨b, n⟩ := f
    obtain ⟨hm, hk⟩ := extractFromBytes_indep env u1 u2 k b n
    obtain ⟨hr, he⟩ := collectUnits_mask n _ _ hm
    obtain ⟨ihr, ihe⟩ := ih ((extractFromBytes env u2 k b n).2)
    simp only [batchLoop]
    rw [hk]
    constructor
    · simp only [List.map_append]
      rw [hr, ihr]
    · rw [he, ihe]

theorem map_conf_of_mask (l1 l2 : List Ride)
    (h : l1.map eraseId = l2.map eraseId) :
    l1.map Ride.extractionConfidence = l2.map Ride.extractionConfidence := by
  have hc : Ride.extractionConfidence ∘ eraseId = Ride.extractionConfidence :=
    funext (fun r => rfl)
  have := congrArg (List.map Ride.extractionConfidence) h
  rwa [List.map_map, List.map_map, hc] at this

end Wego

namespace Wego

/-- C2 (amended): the batch-then-export pipeline is deterministic in
everything except the per-ride `uuid4` identifier: for a fixed ordered
file list and fixed OCR/PDF stubs, two invocations of `extract_batch`
yield the same errors, the same summary and the same success flag, and
their CSV exports are byte-identical once the ID column (the only
uuid-dependent output) is blanked.  With the ids left in, the CSVs differ
(see the counterexample). -/
theorem c2_batch_determinism_modulo_id (env : OcrEnv)
    (files : List (String × String)) (u1 u2 : Nat → String) :
    exportToCsv ((extractBatch env u1 files).results.map eraseId) =
      exportToCsv ((extractBatch env u2 files).results.map eraseId) ∧
    (extractBatch env u1 files).errors = (extractBatch env u2 files).errors ∧
    (extractBatch env u1 files).summary = (extractBatch env u2 files).summary ∧
    (extractBatch env u1 files).success =
      (extractBatch env u2 files).success := by
  obtain ⟨hr, he⟩ := batchLoop_indep env u1 u2 files 0
  have hconf := map_conf_of_mask _ _ hr
  have hlen : (batchLoop env u1 files 0).1.length =
      (batchLoop env u2 files 0).1.length := by
    have := congrArg List.length hr
    simpa using this
  unfold extractBatch
  dsimp only
  refine ⟨by rw [hr], by rw [he], ?_, ?_⟩
  · rw [hlen, he, hconf]
  · rw [hlen]

set_option maxRecDepth 4000 in
/-- Counterexample to C2 as stated: a one-image batch whose stub OCR text
is a bare passenger name, run under two uuid supplies, exports CSVs that
differ (in the ID column). -/
theorem c2_uuid_breaks_csv_determinism :
    exportToCsv (extractBatch envCarlos uuidSupplyA oneImageFile).results ≠
      exportToCsv (extractBatch envCarlos uuidSupplyB oneImageFile).results := by
  decide

end Wego
